import Mathlib

/-!
# Verification of the Zetaris cross-chain transfer and auction tracking core

Shallow embedding of the components described in `spec.md`:

* the VAA message codec (`WormholeBridgeService.parseVAA`),
* the guardian network client (`WormholeBridgeService.getSignedVAA`),
* the transfer orchestrator pieces (`extractSequence`, `transferTokens`,
  `completeTransfer`, `getTransferStatus`),
* the auction tracker (`FusionAuctionTracker`), and
* the event bus (`EventEmitter`).

Machine integers follow JavaScript semantics explicitly: reads past the end
of a `Uint8Array` yield `undefined` (modelled as `none`), the `<< / |`
bit-shift chains coerce their operands through `ToInt32`, and `BigInt`
conversion of an empty hex string throws.
-/

set_option maxRecDepth 100000

namespace Zetaris

/-! ## Byte buffers and JavaScript numeric coercions -/

/-- A `Uint8Array` is modelled as a list of naturals; well-formed buffers
have every entry below 256. -/
abbrev Bytes := List Nat

/-- Every entry of the buffer is a byte. -/
def IsBytes (b : Bytes) : Prop := ∀ x ∈ b, x < 256

instance (b : Bytes) : Decidable (IsBytes b) := by
  unfold IsBytes; infer_instance

/-- `b[i]` as used inside a JS shift chain: an out-of-range read yields
`undefined`, which `ToInt32` coerces to 0. -/
def byteAt (b : Bytes) (i : Nat) : Nat := (b[i]?).getD 0

/-- JavaScript `ToInt32`: reduce modulo 2^32 and interpret as a signed
two's-complement 32-bit value. -/
def toInt32 (u : Nat) : Int :=
  if u % 4294967296 < 2147483648 then ((u % 4294967296 : Nat) : Int)
  else ((u % 4294967296 : Nat) : Int) - 4294967296

/-- JS evaluation of `(b[0] << 24) | (b[1] << 16) | (b[2] << 8) | b[3]` on
the front of a view: the bit patterns of the four shifted bytes do not
overlap, so the result is the signed 32-bit reading of their weighted sum. -/
def read32 (b : Bytes) : Int :=
  toInt32 (byteAt b 0 * 16777216 + byteAt b 1 * 65536 + byteAt b 2 * 256 + byteAt b 3)

/-- JS evaluation of `(b[0] << 8) | b[1]` on the front of a view. -/
def read16 (b : Bytes) : Int :=
  toInt32 (byteAt b 0 * 256 + byteAt b 1)

/-- Lower-case hex digit for a value below 16 (as `Buffer.toString('hex')`
and `ethers.hexlify` produce). -/
def hexDigit (n : Nat) : Char :=
  if n < 10 then Char.ofNat (48 + n) else Char.ofNat (87 + n)

/-- Two lower-case hex digits of one byte. -/
def byteHex (n : Nat) : List Char := [hexDigit (n / 16 % 16), hexDigit (n % 16)]

/-- `ethers.hexlify`: `'0x'` followed by two lower-case hex digits per byte. -/
def hexlify (bs : Bytes) : String := ⟨'0' :: 'x' :: (bs.map byteHex).flatten⟩

/-- The unsigned big-endian value of a byte string (`BigInt('0x' + hex)`
on a non-empty slice). -/
def beNat (bs : Bytes) : Nat := bs.foldl (fun acc b => acc * 256 + b) 0

/-! ## The message codec: `parseVAA` (src/src/bridge/WormholeBridge.ts, lines 307-358) -/

/-- One guardian signature entry as produced by `parseVAA`: the
`guardianIndex` byte is `undefined` when read past the end of the buffer,
and `signature` is whatever `slice` returns (up to 65 bytes). -/
structure SignatureSet where
  guardianIndex : Option Nat
  signature : Bytes
  deriving Repr, DecidableEq

/-- The record returned by `parseVAA`.  `version` and `consistencyLevel`
are stored exactly as read (possibly `undefined`); the 32-bit fields are
signed because the source computes them with JS bit operators; `sequence`
is the unsigned `BigInt` value of the 8-byte slice. -/
structure VAA where
  version : Option Nat
  guardianSetIndex : Int
  signatures : List SignatureSet
  timestamp : Int
  nonce : Int
  emitterChain : Int
  emitterAddress : String
  sequence : Nat
  consistencyLevel : Option Nat
  payload : Bytes
  deriving Repr, DecidableEq

/-- The signature-reading loop of `parseVAA`: per iteration one index byte,
a 65-byte slice, and a cursor advance of 66. -/
def readSigs : Nat → Bytes → List SignatureSet × Bytes
  | 0, b => ([], b)
  | n + 1, b =>
    let gi := b[0]?
    let s := (b.drop 1).take 65
    let rest := readSigs n (b.drop 66)
    (⟨gi, s⟩ :: rest.1, rest.2)

/-- Shallow embedding of `WormholeBridgeService.parseVAA`.  The running
`index` cursor of the source is modelled by dropping consumed bytes from
the front of the buffer.  `vaaBytes[index++]` past the end yields
`undefined`; the shift chains coerce that to 0; `slice` clamps.  The only
way the source can fail is `BigInt('0x' + ...)` throwing a `SyntaxError`
when the 8-byte sequence slice is empty; no length validation is
performed anywhere else. -/
def parseVAA (b : Bytes) : Except String VAA :=
  let version := b[0]?
  let b1 := b.drop 1
  let guardianSetIndex := read32 b1
  let b2 := b1.drop 4
  let sigLength := (b2[0]?).getD 0
  let b3 := b2.drop 1
  let sigs := readSigs sigLength b3
  let b4 := sigs.2
  let timestamp := read32 b4
  let b5 := b4.drop 4
  let nonce := read32 b5
  let b6 := b5.drop 4
  let emitterChain := read16 b6
  let b7 := b6.drop 2
  let emitterAddress := hexlify (b7.take 32)
  let b8 := b7.drop 32
  let seqBytes := b8.take 8
  let b9 := b8.drop 8
  let consistencyLevel := b9[0]?
  let payload := b9.drop 1
  if seqBytes.isEmpty then
    Except.error "Cannot convert 0x to a BigInt"
  else
    Except.ok {
      version := version
      guardianSetIndex := guardianSetIndex
      signatures := sigs.1
      timestamp := timestamp
      nonce := nonce
      emitterChain := emitterChain
      emitterAddress := emitterAddress
      sequence := beNat seqBytes
      consistencyLevel := consistencyLevel
      payload := payload }

example : (parseVAA (List.replicate 56 0)).isOk = true := by decide

example : (parseVAA (List.replicate 48 0)).isOk = false := by decide

/-! ## The codec's inverse serializer (spec §4.1)

The repository only decodes; the spec's `encode` exists "for testing
round-trips".  It is modelled here from the spec's field list. -/

/-- Big-endian bytes of a 16-bit value. -/
def be16 (n : Nat) : Bytes := [n / 256 % 256, n % 256]

/-- Big-endian bytes of a 32-bit value. -/
def be32 (n : Nat) : Bytes :=
  [n / 16777216 % 256, n / 65536 % 256, n / 256 % 256, n % 256]

/-- Big-endian bytes of a 64-bit value. -/
def be64 (n : Nat) : Bytes :=
  [n / 72057594037927936 % 256, n / 281474976710656 % 256,
   n / 1099511627776 % 256, n / 4294967296 % 256,
   n / 16777216 % 256, n / 65536 % 256, n / 256 % 256, n % 256]

/-- Modelled from the spec: the well-formed `Attestation` record of §3 —
`version` (1 byte), `guardianSetIndex` (32-bit), ordered signature list of
{guardianIndex (1 byte), signature (65 bytes)}, `timestamp` (32-bit),
`nonce` (32-bit), `emitterChain` (16-bit), `emitterAddress` (32 bytes),
`sequence` (64-bit), `consistencyLevel` (1 byte), `payload` (remaining
bytes).  The source repository has no such type; `parseVAA` produces the
`VAA` record instead. -/
structure Attestation where
  version : Nat
  guardianSetIndex : Nat
  signatures : List (Nat × Bytes)
  timestamp : Nat
  nonce : Nat
  emitterChain : Nat
  emitterAddress : Bytes
  sequence : Nat
  consistencyLevel : Nat
  payload : Bytes
  deriving Repr, DecidableEq

/-- The attestation has field values in range: byte-sized fields below 256,
32-bit fields below 2^32, at most 255 signatures of exactly 65 bytes each,
a 32-byte emitter address, a 64-bit sequence, and byte-valued buffers. -/
def Attestation.WellFormed (a : Attestation) : Prop :=
  a.version < 256 ∧ a.guardianSetIndex < 4294967296 ∧
  a.signatures.length < 256 ∧
  (∀ s ∈ a.signatures, s.1 < 256 ∧ s.2.length = 65 ∧ IsBytes s.2) ∧
  a.timestamp < 4294967296 ∧ a.nonce < 4294967296 ∧
  a.emitterChain < 65536 ∧
  a.emitterAddress.length = 32 ∧ IsBytes a.emitterAddress ∧
  a.sequence < 18446744073709551616 ∧ a.consistencyLevel < 256 ∧
  IsBytes a.payload

instance (a : Attestation) : Decidable a.WellFormed := by
  unfold Attestation.WellFormed; infer_instance

/-- Modelled from the spec: `encode(Attestation) -> bytes`, the positional
big-endian serialization of §3/§4.1, inverse of the decoder for testing
round-trips. -/
def encode (a : Attestation) : Bytes :=
  a.version :: be32 a.guardianSetIndex ++
  a.signatures.length :: (a.signatures.map (fun s => s.1 :: s.2)).flatten ++
  be32 a.timestamp ++ be32 a.nonce ++ be16 a.emitterChain ++
  a.emitterAddress ++ be64 a.sequence ++ a.consistencyLevel :: a.payload

/-- The `VAA` record that a lossless decode of `encode a` would produce:
the same field values under `parseVAA`'s output representation (options
for the byte-sized reads, `hexlify` for the emitter address). -/
def Attestation.toVAA (a : Attestation) : VAA where
  version := some a.version
  guardianSetIndex := (a.guardianSetIndex : Int)
  signatures := a.signatures.map (fun s => ⟨some s.1, s.2⟩)
  timestamp := (a.timestamp : Int)
  nonce := (a.nonce : Int)
  emitterChain := (a.emitterChain : Int)
  emitterAddress := hexlify a.emitterAddress
  sequence := a.sequence
  consistencyLevel := some a.consistencyLevel
  payload := a.payload

instance {ε α : Type} [DecidableEq ε] [DecidableEq α] : DecidableEq (Except ε α) := fun a b =>
  match a, b with
  | .ok x, .ok y =>
    if h : x = y then .isTrue (by rw [h]) else .isFalse (fun hc => h (Except.ok.inj hc))
  | .error x, .error y =>
    if h : x = y then .isTrue (by rw [h]) else .isFalse (fun hc => h (Except.error.inj hc))
  | .ok _, .error _ => .isFalse (fun hc => Except.noConfusion hc)
  | .error _, .ok _ => .isFalse (fun hc => Except.noConfusion hc)

/-- A small attestation used for concrete checks. -/
def sampleAtt : Attestation where
  version := 1
  guardianSetIndex := 7
  signatures := [(3, List.replicate 65 9)]
  timestamp := 1700000000
  nonce := 42
  emitterChain := 2
  emitterAddress := List.replicate 32 5
  sequence := 123456789
  consistencyLevel := 15
  payload := [222, 173, 190, 239]

example : parseVAA (encode sampleAtt) = Except.ok sampleAtt.toVAA := by decide

/-- The attestation exhibiting the signed-32-bit truncation: its guardian
set index has the top bit of the first byte set. -/
def bigGsiAtt : Attestation where
  version := 1
  guardianSetIndex := 2147483648
  signatures := []
  timestamp := 0
  nonce := 0
  emitterChain := 0
  emitterAddress := List.replicate 32 0
  sequence := 0
  consistencyLevel := 0
  payload := []

example : bigGsiAtt.WellFormed ∧ parseVAA (encode bigGsiAtt) ≠ Except.ok bigGsiAtt.toVAA := by
  decide

/-! ## The guardian network client: `getSignedVAA` (lines 210-239) -/

/-- The positions of the five fixed `GUARDIAN_RPC_HOSTS` endpoints. -/
def guardianHostIdx : List Nat := [0, 1, 2, 3, 4]

/-- The inner `for (const host of this.GUARDIAN_RPC_HOSTS)` loop: issue one
request per host in order; `resp i = some p` models an HTTP-ok response
with a payload, `none` models any failure (thrown fetch, non-ok status),
which the source swallows and continues with the next host.  Returns the
host indices queried and the first successful payload, if any. -/
def queryHosts {P : Type} (resp : Nat → Option P) : List Nat → List Nat × Option P
  | [] => ([], none)
  | i :: rest =>
    match resp i with
    | some p => ([i], some p)
    | none =>
      let r := queryHosts resp rest
      (i :: r.1, r.2)

/-- A run of the guardian client: the (round, host) requests issued in
order, the number of inter-round `setTimeout(5000)` delays awaited, and
the outcome. -/
structure VaaRun (P : Type) where
  requests : List (Nat × Nat)
  delays : Nat
  result : Except String P
  deriving Repr

/-- The `for (let attempt = 0; attempt < 30; attempt++)` retry loop of
`getSignedVAA`, with `fuel` attempts remaining starting at round `round`:
query all five hosts; a success returns its payload immediately; otherwise
await the fixed 5-second delay and retry; when the attempts are exhausted
throw. -/
def vaaFetch {P : Type} (resp : Nat → Nat → Option P) :
    Nat → Nat → VaaRun P
  | _, 0 => ⟨[], 0, Except.error "Failed to retrieve signed VAA after 30 attempts"⟩
  | round, fuel + 1 =>
    let r := queryHosts (resp round) guardianHostIdx
    let qs := r.1.map (fun i => (round, i))
    match r.2 with
    | some p => ⟨qs, 0, Except.ok p⟩
    | none =>
      let rest := vaaFetch resp (round + 1) fuel
      ⟨qs ++ rest.requests, rest.delays + 1, rest.result⟩

/-- `getSignedVAA`: 30 rounds over the five guardian hosts, starting at
round 0. -/
def getSignedVAA {P : Type} (resp : Nat → Nat → Option P) : VaaRun P :=
  vaaFetch resp 0 30

/-! ## The transfer orchestrator (lines 132-208, 241-273, 360-403) -/

/-- A receipt-level log entry: `topics` are the indexed-event hashes,
`data` the ABI-encoded payload bytes. -/
structure Log where
  topics : List String
  data : Bytes
  deriving Repr, DecidableEq

/-- The part of `ethers.TransactionReceipt` the orchestrator reads. -/
structure TransactionReceipt where
  logs : List Log
  deriving Repr, DecidableEq

/-- `ethers.id('LogMessagePublished(address,uint64,uint32,bytes,uint8)')`
is an injective keccak-based tag of the event signature; since the source
only compares it for equality with `topics[0]`, it is modelled by the
signature string itself. -/
def logTransferTopic : String := "LogMessagePublished(address,uint64,uint32,bytes,uint8)"

/-- `ethers.AbiCoder.defaultAbiCoder().decode(['address','uint64','uint32',
'bytes','uint8'], data)` (ethers v6, strict reader), reduced to the value
the source consumes, field 1.  The children decode in order against the
5-word head: the address coder reads word 0 and `toBeHex(value, 20)`
raises a numeric fault when the value exceeds 20 bytes; `uint64` and
`uint32` read words 1 and 2 masked to their width; the dynamic `bytes`
coder reads its offset from word 3 and immediately decodes the tail —
a length word at the offset followed by the payload padded to a 32-byte
multiple — before `uint8` reads word 4; every read past the end of the
buffer raises a buffer overrun.  Errors are represented by their ethers
error codes.  `Number(decoded[1])` is exact below `2^53`; the model keeps
the integer. -/
def abiDecodeLogData (data : Bytes) : Except String Nat :=
  if data.length < 32 then Except.error "BUFFER_OVERRUN"
  else if 1461501637330902918203684832716283019655932542976 ≤ beNat (data.take 32) then
    Except.error "NUMERIC_FAULT"
  else if data.length < 64 then Except.error "BUFFER_OVERRUN"
  else
    let seq := beNat ((data.drop 32).take 32) % 18446744073709551616
    if data.length < 96 then Except.error "BUFFER_OVERRUN"
    else if data.length < 128 then Except.error "BUFFER_OVERRUN"
    else
      let off := beNat ((data.drop 96).take 32)
      if data.length < off + 32 then Except.error "BUFFER_OVERRUN"
      else
        let blen := beNat ((data.drop off).take 32)
        if data.length < off + 32 + (blen + 31) / 32 * 32 then
          Except.error "BUFFER_OVERRUN"
        else if data.length < 160 then Except.error "BUFFER_OVERRUN"
        else Except.ok seq

/-- `extractSequence` (lines 386-403): find the first receipt log whose
first topic is the `LogMessagePublished` tag; absence throws
`'LogMessagePublished event not found'`; otherwise ABI-decode
`(address, uint64, uint32, bytes, uint8)` from the log data — which
throws out of the call on short or malformed data — and return field 1,
the unsigned 64-bit sequence. -/
def extractSequence (receipt : TransactionReceipt) : Except String Nat :=
  match receipt.logs.find? (fun l => l.topics[0]? = some logTransferTopic) with
  | none => Except.error "LogMessagePublished event not found"
  | some l => abiDecodeLogData l.data

/-- The per-transfer record stored in `activeTransfers`. -/
structure TokenBridgeTransfer where
  tokenChain : Nat
  tokenAddress : String
  amount : Nat
  targetChain : Nat
  targetAddress : String
  deriving Repr, DecidableEq

/-- A JS `Map` with string keys: insertion-ordered association list. -/
abbrev JsMap (A : Type) := List (String × A)

/-- `Map.prototype.get`. -/
def mapGet {A : Type} (k : String) (m : JsMap A) : Option A :=
  (m.find? (fun e => e.1 = k)).map (fun e => e.2)

/-- `Map.prototype.set`: replace in place, else append. -/
def mapSet {A : Type} (k : String) (v : A) : JsMap A → JsMap A
  | [] => [(k, v)]
  | e :: rest => if e.1 = k then (k, v) :: rest else e :: mapSet k v rest

/-- `Map.prototype.delete`. -/
def mapDelete {A : Type} (k : String) (m : JsMap A) : JsMap A :=
  m.filter (fun e => e.1 ≠ k)

abbrev TransferMap := JsMap TokenBridgeTransfer

/-- The `` `${sourceChainId}-${sequence}` `` key of `activeTransfers`. -/
def transferKey (sourceChainId sequence : Nat) : String :=
  toString sourceChainId ++ "-" ++ toString sequence

/-- The post-receipt tail of `transferTokens` (lines 188-207): extract the
sequence number from the lock receipt — a missing `LogMessagePublished`
entry throws out of the call before any bookkeeping happens — then record
the transfer in `activeTransfers` under its key and return the sequence. -/
def transferTokensStep (sourceChainId : Nat) (receipt : TransactionReceipt)
    (tr : TokenBridgeTransfer) (active : TransferMap) :
    Except String (TransferMap × Nat) :=
  match extractSequence receipt with
  | .error e => .error e
  | .ok seq => .ok (mapSet (transferKey sourceChainId seq) tr active, seq)

/-- `completeTransfer` (lines 241-273) submits the VAA through the target
chain's token-bridge contract and returns the transaction hash; it reads
only the contract/provider configuration and never touches
`activeTransfers`, so its effect on that map is the identity. -/
def completeTransferActive (active : TransferMap) : TransferMap := active

/-- `getTransferStatus` (lines 360-384): a read-only lookup of the
transfer key; `not_found` when absent, otherwise `ready`/`pending`
according to whether the VAA fetch succeeds.  The map is not modified. -/
def getTransferStatus (sourceChainId sequence : Nat) (active : TransferMap)
    (vaaReady : Bool) : String :=
  match mapGet (transferKey sourceChainId sequence) active with
  | none => "not_found"
  | some _ => if vaaReady then "ready" else "pending"

/-! ## The event bus: `EventEmitter.emit` (src/unnamed/part_002, lines 80-95) -/

/-- A subscribed handler: invoked with the published event, it either
completes or throws with the given message. -/
abbrev Handler (α : Type) := α → Except String Unit

/-- `EventEmitter.emit`: with no listener registered return `false`;
otherwise invoke every listener with the same arguments inside a
`try`/`catch` that logs a thrown error and continues, then return `true`.
The trace records, in invocation order, each listener's position and
whether it completed without throwing. -/
def emitModel {α : Type} (ls : List (Handler α)) (x : α) : Bool × List (Nat × Bool) :=
  if ls.isEmpty then (false, [])
  else
    (true, ls.enum.foldl (fun acc e => acc ++ [(e.1, (e.2 x).isOk)]) [])

/-! ## The auction tracker (src/src/fusion/FusionAuctionTracker.ts) -/

/-- The `AuctionState` enum. -/
inductive AuctionState
  | pending
  | announced
  | inAuction
  | resolverSelected
  | escrowDeposited
  | secretRevealing
  | executing
  | completed
  | failed
  | expired
  | refunding
  | refunded
  deriving Repr, DecidableEq

/-- The `ResolverInfo` record (the optional deposit hash is never set by
the tracker and is omitted). -/
structure ResolverInfo where
  address : String
  bidAmount : String
  reputation : Nat
  estimatedTime : Nat
  deriving Repr, DecidableEq

/-- Modelled from the spec: the status-query collaborator record of §6,
`getOrderStatus(orderHash) -> {status: string, resolver?: string,
fills?: list}` — `FusionPlusClient` is not among the sources.  Fill
entries are opaque to the tracker, which only checks their presence. -/
structure AuctionStatus where
  status : String
  resolver : Option String
  fills : Option (List Unit)
  deriving Repr, DecidableEq

/-- The per-order record stored in `activeAuctions`; the live interval
handle is modelled by the `intervalActive` flag (`clearInterval` sets it
to false, deleting the entry discards it). -/
structure Auction where
  state : AuctionState
  resolver : Option ResolverInfo
  startTime : Nat
  timeoutMs : Nat
  intervalActive : Bool
  deriving Repr, DecidableEq

abbrev AuctionMap := JsMap Auction

/-- Observable emissions: `emitAuctionEvent` publishes an `auction_update`
event and a state-named event for the same state change; `handleTimeout`
additionally publishes `refund_needed` with the order hash. -/
inductive Event
  | auctionUpdate (orderHash : String) (state : AuctionState)
  | stateEvent (orderHash : String) (state : AuctionState)
  | refundNeeded (orderHash : String)
  deriving Repr, DecidableEq

/-- `emitAuctionEvent` (lines 226-241). -/
def emitAuctionEvent (h : String) (s : AuctionState) : List Event :=
  [.auctionUpdate h s, .stateEvent h s]

/-- The default 30-minute timeout of `trackOrder`, in milliseconds. -/
def defaultTimeoutMs : Nat := 1800000

/-- `trackOrder` (lines 73-95): register the order with state `PENDING`
and the wall-clock start time, then emit an initial `ANNOUNCED` event
(the stored state stays `PENDING` until the first poll). -/
def trackOrder (h : String) (now : Nat) (timeoutMs : Nat) (m : AuctionMap) :
    AuctionMap × List Event :=
  (mapSet h ⟨.pending, none, now, timeoutMs, true⟩ m,
   emitAuctionEvent h .announced)

/-- The `switch (status.status)` table of `checkAuctionStatus`
(lines 155-193): `executing` maps to `ESCROW_DEPOSITED` exactly when at
least one fill record is present; an unrecognized status keeps the
current state. -/
def mapStatus (current : AuctionState) (st : AuctionStatus) : AuctionState :=
  if st.status = "pending" then .announced
  else if st.status = "in_auction" then .inAuction
  else if st.status = "resolver_selected" then .resolverSelected
  else if st.status = "executing" then
    match st.fills with
    | some fills => if fills.length > 0 then .escrowDeposited else .executing
    | none => .executing
  else if st.status = "completed" then .completed
  else if st.status = "failed" then .failed
  else if st.status = "expired" then .expired
  else current

/-- The resolver-info side effect of the `resolver_selected` case, applied
whether or not the state subsequently changes. -/
def updateResolver (a : Auction) (st : AuctionStatus) : Auction :=
  if st.status = "resolver_selected" then
    match st.resolver with
    | some addr => { a with resolver := some ⟨addr, "0", 0, 300⟩ }
    | none => a
  else a

/-- `checkAuctionStatus` (lines 145-207) on a successfully fetched status:
look the order up (absent → no-op), apply the resolver side effect and the
status table, and — only if the mapped state differs from the current
one — store the new state and emit the two auction events.  A fetch error
is caught and changes nothing, so it is not modelled separately. -/
def checkAuctionStatus (h : String) (st : AuctionStatus) (m : AuctionMap) :
    AuctionMap × List Event :=
  match mapGet h m with
  | none => (m, [])
  | some a =>
    let a1 := updateResolver a st
    let newState := mapStatus a.state st
    if newState ≠ a.state then
      (mapSet h { a1 with state := newState } m, emitAuctionEvent h newState)
    else
      (mapSet h a1 m, [])

/-- The terminal states of the polling loop (lines 115-120). -/
def terminalStates : List AuctionState :=
  [.completed, .failed, .expired, .refunded]

/-- One firing of the 5-second interval callback installed by
`startPolling` (lines 104-140), at wall clock `now`, with `st` the status
the fetch reports.  The callback fires only while the order's interval is
live; the returned flag records whether a status poll was issued.
Body, in source order: poll via `checkAuctionStatus`; if the re-fetched
entry is gone, stop; if its state is terminal, clear the interval and
delete the entry; then, if the elapsed time since `startTime` exceeds
`timeoutMs`, run `handleTimeout` (lines 212-221: set `EXPIRED` on the
still-registered entry, emit the state events and a `refund_needed`
signal; a no-op if the entry was just deleted) and clear the interval. -/
def pollTick (h : String) (now : Nat) (st : AuctionStatus) (m : AuctionMap) :
    AuctionMap × List Event × Bool :=
  match mapGet h m with
  | none => (m, [], false)
  | some a0 =>
    if a0.intervalActive = false then (m, [], false)
    else
      let c := checkAuctionStatus h st m
      match mapGet h c.1 with
      | none => (c.1, c.2, true)
      | some a =>
        let afterTerm :=
          if a.state ∈ terminalStates then mapDelete h c.1 else c.1
        if (now : Int) - (a.startTime : Int) > (a.timeoutMs : Int) then
          match mapGet h afterTerm with
          | none => (afterTerm, c.2, true)
          | some a2 =>
            (mapSet h { a2 with state := .expired, intervalActive := false } afterTerm,
             c.2 ++ emitAuctionEvent h .expired ++ [.refundNeeded h],
             true)
        else (afterTerm, c.2, true)

/-- `getAuctionState` (lines 246-248); every enum value is a non-empty,
hence truthy, string, so `?.state || null` is the plain optional read. -/
def getAuctionState (h : String) (m : AuctionMap) : Option AuctionState :=
  (mapGet h m).map (fun a => a.state)

/-- `getActiveAuctions` (lines 285-291): the registry restricted to the
order-hash → state view. -/
def getActiveAuctions (m : AuctionMap) : List (String × AuctionState) :=
  m.map (fun e => (e.1, e.2.state))

/-- Applying a sequence of successful polls through `checkAuctionStatus`,
recording after each poll the stored state and the events it emitted. -/
def pollStatuses (h : String) : List AuctionStatus → AuctionMap →
    AuctionMap × List (Option AuctionState × List Event)
  | [], m => (m, [])
  | st :: rest, m =>
    let c := checkAuctionStatus h st m
    let r := pollStatuses h rest c.1
    (r.1, (getAuctionState h c.1, c.2) :: r.2)

/-! ## Helper lemmas -/

theorem mapGet_mapSet_self {A : Type} (k : String) (v : A) (m : JsMap A) :
    mapGet k (mapSet k v m) = some v := by
  induction m with
  | nil => simp [mapGet, mapSet, List.find?]
  | cons e rest ih =>
    by_cases h : e.1 = k
    · simp [mapGet, mapSet, h, List.find?]
    · simpa [mapGet, mapSet, h, List.find?] using ih

theorem mapGet_mapDelete_self {A : Type} (k : String) (m : JsMap A) :
    mapGet k (mapDelete k m) = none := by
  induction m with
  | nil => simp [mapGet, mapDelete]
  | cons e rest ih =>
    by_cases h : e.1 = k
    · simp [mapGet, mapDelete, h, List.find?] at ih ⊢
    · simp [mapGet, mapDelete, h, List.find?] at ih ⊢

theorem readSigs_snd (n : Nat) (l : Bytes) : (readSigs n l).2 = l.drop (66 * n) := by
  induction n generalizing l with
  | zero => simp [readSigs]
  | succ k ih =>
    have harith : 66 + 66 * k = 66 * (k + 1) := by ring
    simp [readSigs, ih, List.drop_drop, harith]

/-! ## C1: decoding short buffers -/

/-- C1: the claim states that for every buffer shorter than the size
implied by its declared signature-count byte, `parseVAA` fails with a
decode error.  This is false: a 56-byte all-zero buffer (implied size 57)
is decoded to a fully-constructed record — the out-of-range
`consistencyLevel` read simply yields `undefined` — and no
`TruncatedMessage`/`InvalidSignatureCount` error exists in the source. -/
theorem parseVAA_short_buffer_ok :
    (List.replicate 56 0).length <
      1 + 4 + 1 + 66 * byteAt (List.replicate 56 0) 5 + 4 + 4 + 2 + 32 + 8 + 1 ∧
    (parseVAA (List.replicate 56 0)).isOk = true := by
  decide

/-- C1 (amended): `parseVAA` performs no length validation.  It fails —
by the `BigInt('0x' + ...)` conversion throwing, the only possible
failure — exactly when the buffer ends at or before the start of the
8-byte sequence field, i.e. when its length is at most `48 + 66 * n` for
`n` the effective signature-count byte; every other buffer, including
every other buffer shorter than the size its signature count implies, is
decoded to a fully-constructed record with out-of-range reads coerced to
`undefined`/0/short slices. -/
theorem parseVAA_error_iff (b : Bytes) :
    parseVAA b = Except.error "Cannot convert 0x to a BigInt" ↔
      b.length ≤ 48 + 66 * byteAt b 5 := by
  simp only [parseVAA, readSigs_snd, List.drop_drop, List.getElem?_drop]
  norm_num
  simp only [byteAt]
  constructor
  · intro h
    by_contra hlt
    exact absurd (h (by omega)) (by simp)
  · intro h hlt
    exact absurd hlt (by omega)

/-! ## C3: integer field encodings -/

theorem toInt32_small (u : Nat) (h : u < 2147483648) : toInt32 u = (u : Int) := by
  unfold toInt32
  rw [Nat.mod_eq_of_lt (by omega)]
  simp [h]

theorem toInt32_bytes (b0 b1 b2 b3 : Nat) (h0 : b0 < 256) (h1 : b1 < 256)
    (h2 : b2 < 256) (h3 : b3 < 256) :
    toInt32 (b0 * 16777216 + b1 * 65536 + b2 * 256 + b3) =
      if b0 < 128 then ((b0 * 16777216 + b1 * 65536 + b2 * 256 + b3 : Nat) : Int)
      else ((b0 * 16777216 + b1 * 65536 + b2 * 256 + b3 : Nat) : Int) - 4294967296 := by
  unfold toInt32
  rw [Nat.mod_eq_of_lt (by omega)]
  split_ifs <;> omega

theorem read32_cons (x0 x1 x2 x3 : Nat) (rest : Bytes) :
    read32 (x0 :: x1 :: x2 :: x3 :: rest) =
      toInt32 (x0 * 16777216 + x1 * 65536 + x2 * 256 + x3) := by
  simp [read32, byteAt]

theorem read16_cons (x0 x1 : Nat) (rest : Bytes) :
    read16 (x0 :: x1 :: rest) = toInt32 (x0 * 256 + x1) := by
  simp [read16, byteAt]

/-- C3: the claim states that `guardianSetIndex`, `timestamp` and `nonce`
are decoded as unsigned 32-bit big-endian values, equal to
`b0*2^24 + b1*2^16 + b2*2^8 + b3` even when `b0 >= 128`.  This is false:
the source computes them with the JS `<< / |` operators, which produce a
signed 32-bit value — on a 57-byte buffer whose guardian-set-index bytes
are `80 00 00 00` the decoded value is `-2147483648`, not `2147483648`. -/
theorem parseVAA_guardianSetIndex_signed :
    (parseVAA ([0, 128] ++ List.replicate 55 0)).map (fun w => w.guardianSetIndex)
        = Except.ok (-2147483648 : Int) ∧
      (-2147483648 : Int) ≠ 128 * 16777216 + 0 * 65536 + 0 * 256 + 0 := by
  decide

/-- C3 (amended): on every sufficiently long buffer — decomposed here into
its positional fields, with `nsig` the declared signature-count byte —
`parseVAA` decodes `guardianSetIndex`, `timestamp` and `nonce` as
*signed* 32-bit big-endian values: equal to the unsigned weighted sum of
their 4 bytes when the leading byte is below 128, and to that sum minus
2^32 otherwise; `emitterChain` is the unsigned 16-bit and `sequence` the
unsigned 64-bit big-endian value of their bytes. -/
theorem parseVAA_field_encodings
    (v g0 g1 g2 g3 t0 t1 t2 t3 u0 u1 u2 u3 c0 c1 s0 s1 s2 s3 s4 s5 s6 s7 cl : Nat)
    (nsig : Nat) (sigbytes addr payload : Bytes)
    (hsig : sigbytes.length = 66 * nsig) (haddr : addr.length = 32)
    (hg0 : g0 < 256) (hg1 : g1 < 256) (hg2 : g2 < 256) (hg3 : g3 < 256)
    (ht0 : t0 < 256) (ht1 : t1 < 256) (ht2 : t2 < 256) (ht3 : t3 < 256)
    (hu0 : u0 < 256) (hu1 : u1 < 256) (hu2 : u2 < 256) (hu3 : u3 < 256)
    (hc0 : c0 < 256) (hc1 : c1 < 256) :
    ∃ w, parseVAA (v :: g0 :: g1 :: g2 :: g3 :: nsig ::
        (sigbytes ++ (t0 :: t1 :: t2 :: t3 :: u0 :: u1 :: u2 :: u3 :: c0 :: c1 ::
          (addr ++ (s0 :: s1 :: s2 :: s3 :: s4 :: s5 :: s6 :: s7 :: cl :: payload)))))
        = Except.ok w ∧
      w.guardianSetIndex = (if g0 < 128
        then ((g0 * 16777216 + g1 * 65536 + g2 * 256 + g3 : Nat) : Int)
        else ((g0 * 16777216 + g1 * 65536 + g2 * 256 + g3 : Nat) : Int) - 4294967296) ∧
      w.timestamp = (if t0 < 128
        then ((t0 * 16777216 + t1 * 65536 + t2 * 256 + t3 : Nat) : Int)
        else ((t0 * 16777216 + t1 * 65536 + t2 * 256 + t3 : Nat) : Int) - 4294967296) ∧
      w.nonce = (if u0 < 128
        then ((u0 * 16777216 + u1 * 65536 + u2 * 256 + u3 : Nat) : Int)
        else ((u0 * 16777216 + u1 * 65536 + u2 * 256 + u3 : Nat) : Int) - 4294967296) ∧
      w.emitterChain = ((c0 * 256 + c1 : Nat) : Int) ∧
      w.sequence = s0 * 72057594037927936 + s1 * 281474976710656 +
        s2 * 1099511627776 + s3 * 4294967296 + s4 * 16777216 + s5 * 65536 +
        s6 * 256 + s7 := by
  simp only [parseVAA, readSigs_snd]
  simp only [List.drop_succ_cons, List.drop_zero, List.getElem?_cons_zero,
    Option.getD_some, List.drop_left' hsig]
  rw [List.take_left' haddr, List.drop_left' haddr]
  simp only [read32_cons, read16_cons]
  simp only [List.take_succ_cons, List.take_zero, List.drop_succ_cons, List.drop_zero,
    List.getElem?_cons_zero, List.isEmpty_cons, Bool.false_eq_true, if_false]
  refine ⟨_, rfl, ?_, ?_, ?_, ?_, ?_⟩
  · exact toInt32_bytes g0 g1 g2 g3 hg0 hg1 hg2 hg3
  · exact toInt32_bytes t0 t1 t2 t3 ht0 ht1 ht2 ht3
  · exact toInt32_bytes u0 u1 u2 u3 hu0 hu1 hu2 hu3
  · exact toInt32_small _ (by omega)
  · simp [beNat]
    ring

/-- Witness for `parseVAA_field_encodings`: a concrete 57-byte buffer with
a leading guardian-set-index byte of 200 (≥ 128). -/
theorem parseVAA_field_encodings_witness :
    ∃ w, parseVAA (1 :: 200 :: 0 :: 0 :: 0 :: 0 ::
        ([] ++ (0 :: 0 :: 0 :: 1 :: 0 :: 0 :: 0 :: 2 :: 0 :: 3 ::
          (List.replicate 32 0 ++ (0 :: 0 :: 0 :: 0 :: 0 :: 0 :: 0 :: 9 :: 1 :: [])))))
        = Except.ok w ∧
      w.guardianSetIndex = (if (200 : Nat) < 128
        then ((200 * 16777216 + 0 * 65536 + 0 * 256 + 0 : Nat) : Int)
        else ((200 * 16777216 + 0 * 65536 + 0 * 256 + 0 : Nat) : Int) - 4294967296) ∧
      w.timestamp = (if (0 : Nat) < 128
        then ((0 * 16777216 + 0 * 65536 + 0 * 256 + 1 : Nat) : Int)
        else ((0 * 16777216 + 0 * 65536 + 0 * 256 + 1 : Nat) : Int) - 4294967296) ∧
      w.nonce = (if (0 : Nat) < 128
        then ((0 * 16777216 + 0 * 65536 + 0 * 256 + 2 : Nat) : Int)
        else ((0 * 16777216 + 0 * 65536 + 0 * 256 + 2 : Nat) : Int) - 4294967296) ∧
      w.emitterChain = ((0 * 256 + 3 : Nat) : Int) ∧
      w.sequence = 0 * 72057594037927936 + 0 * 281474976710656 +
        0 * 1099511627776 + 0 * 4294967296 + 0 * 16777216 + 0 * 65536 +
        0 * 256 + 9 :=
  parseVAA_field_encodings 1 200 0 0 0 0 0 0 1 0 0 0 2 0 3 0 0 0 0 0 0 0 9 1 0
    [] (List.replicate 32 0) [] (by decide) (by decide)
    (by decide) (by decide) (by decide) (by decide) (by decide) (by decide)
    (by decide) (by decide) (by decide) (by decide) (by decide) (by decide)
    (by decide) (by decide)

/-! ## C2: round-trip of the codec -/

theorem readSigs_encode (sigs : List (Nat × Bytes)) (rest : Bytes)
    (h65 : ∀ s ∈ sigs, s.2.length = 65) :
    readSigs sigs.length ((sigs.map (fun s => s.1 :: s.2)).flatten ++ rest) =
      (sigs.map (fun s => (⟨some s.1, s.2⟩ : SignatureSet)), rest) := by
  induction sigs with
  | nil => simp [readSigs]
  | cons s ss ih =>
    have hs : s.2.length = 65 := h65 s (by simp)
    simp only [List.map_cons, List.flatten_cons, List.length_cons, List.cons_append,
      List.append_assoc, readSigs, List.getElem?_cons_zero, List.drop_succ_cons,
      List.drop_zero]
    rw [List.take_left' hs, List.drop_left' hs]
    rw [ih (fun t ht => h65 t (by simp [ht]))]

theorem beNat_digits (x : Nat) :
    beNat [x / 72057594037927936 % 256, x / 281474976710656 % 256,
      x / 1099511627776 % 256, x / 4294967296 % 256, x / 16777216 % 256,
      x / 65536 % 256, x / 256 % 256, x % 256] = x % 18446744073709551616 := by
  simp [beNat]
  omega

/-- C2: the claim states `decode(encode(a)) == a` for *every* well-formed
attestation with 0–255 signatures.  This is false: the 32-bit fields are
decoded through JS bit operators as signed values, so any attestation
whose `guardianSetIndex` (or `timestamp`, or `nonce`) is at least `2^31`
comes back different — `bigGsiAtt` has `guardianSetIndex = 2^31` and
decodes to `-2^31`. -/
theorem encode_roundtrip_fails_high_bit :
    bigGsiAtt.WellFormed ∧ parseVAA (encode bigGsiAtt) ≠ Except.ok bigGsiAtt.toVAA := by
  decide

/-- C2 (amended): `decode(encode(a)) == a` — with `decode = parseVAA` and
`encode` the spec's inverse serializer, and `a`'s fields read back under
`parseVAA`'s representation (`Attestation.toVAA`) — holds for every
well-formed attestation with 0–255 signatures whose 32-bit fields
`guardianSetIndex`, `timestamp` and `nonce` are below `2^31` (so that the
source's signed 32-bit reads coincide with the unsigned values). -/
theorem parseVAA_encode_roundtrip (a : Attestation) (h : a.WellFormed)
    (hg : a.guardianSetIndex < 2147483648) (ht : a.timestamp < 2147483648)
    (hn : a.nonce < 2147483648) :
    parseVAA (encode a) = Except.ok a.toVAA := by
  obtain ⟨hv, hgsi, hlen, hsigs, hts, hnn, hch, haddr, haddrB, hseq, hcl, hpl⟩ := h
  simp only [encode, be32, be16, be64, List.cons_append, List.append_assoc,
    List.nil_append]
  simp only [parseVAA, List.drop_succ_cons, List.drop_zero, List.getElem?_cons_zero,
    Option.getD_some]
  rw [readSigs_encode a.signatures _ (fun s hs => (hsigs s hs).2.1)]
  simp only [read32_cons, read16_cons, List.drop_succ_cons, List.drop_zero]
  rw [List.take_left' haddr, List.drop_left' haddr]
  simp only [List.take_succ_cons, List.take_zero, List.drop_succ_cons, List.drop_zero,
    List.getElem?_cons_zero, List.isEmpty_cons, Bool.false_eq_true, if_false]
  have e32 : ∀ x : Nat, x < 2147483648 →
      toInt32 (x / 16777216 % 256 * 16777216 + x / 65536 % 256 * 65536 +
        x / 256 % 256 * 256 + x % 256) = (x : Int) := by
    intro x hx
    rw [show x / 16777216 % 256 * 16777216 + x / 65536 % 256 * 65536 +
      x / 256 % 256 * 256 + x % 256 = x by omega]
    exact toInt32_small x hx
  have e16 : toInt32 (a.emitterChain / 256 % 256 * 256 + a.emitterChain % 256)
      = (a.emitterChain : Int) := by
    rw [show a.emitterChain / 256 % 256 * 256 + a.emitterChain % 256
      = a.emitterChain by omega]
    exact toInt32_small _ (by omega)
  rw [e32 _ hg, e32 _ ht, e32 _ hn, e16, beNat_digits,
    Nat.mod_eq_of_lt hseq]
  rfl

/-- Witness for `parseVAA_encode_roundtrip`: the concrete one-signature
attestation `sampleAtt` decodes back to itself. -/
theorem parseVAA_encode_roundtrip_witness :
    parseVAA (encode sampleAtt) = Except.ok sampleAtt.toVAA :=
  parseVAA_encode_roundtrip sampleAtt (by decide) (by decide) (by decide) (by decide)

/-! ## C4: guardian client retry policy -/

theorem queryHosts_all_fail {P : Type} (resp : Nat → Option P) (l : List Nat)
    (h : ∀ i ∈ l, resp i = none) : queryHosts resp l = (l, none) := by
  induction l with
  | nil => rfl
  | cons i rest ih =>
    simp [queryHosts, h i (by simp), ih (fun j hj => h j (by simp [hj]))]

theorem queryHosts_first_success {P : Type} (resp : Nat → Option P) (i : Nat) (p : P)
    (hi : i < 5) (hs : resp i = some p) (hmin : ∀ j, j < i → resp j = none) :
    ∃ qs, queryHosts resp guardianHostIdx = (qs, some p) ∧ qs.length = i + 1 := by
  interval_cases i
  · exact ⟨[0], by simp [guardianHostIdx, queryHosts, hs], rfl⟩
  · exact ⟨[0, 1], by simp [guardianHostIdx, queryHosts, hs,
      hmin 0 (by omega)], rfl⟩
  · exact ⟨[0, 1, 2], by simp [guardianHostIdx, queryHosts, hs,
      hmin 0 (by omega), hmin 1 (by omega)], rfl⟩
  · exact ⟨[0, 1, 2, 3], by simp [guardianHostIdx, queryHosts, hs,
      hmin 0 (by omega), hmin 1 (by omega), hmin 2 (by omega)], rfl⟩
  · exact ⟨[0, 1, 2, 3, 4], by simp [guardianHostIdx, queryHosts, hs,
      hmin 0 (by omega), hmin 1 (by omega), hmin 2 (by omega),
      hmin 3 (by omega)], rfl⟩

theorem vaaFetch_all_fail {P : Type} (resp : Nat → Nat → Option P) (fuel : Nat) :
    ∀ r0, (∀ r i, r0 ≤ r → r < r0 + fuel → i < 5 → resp r i = none) →
      (vaaFetch resp r0 fuel).result
          = Except.error "Failed to retrieve signed VAA after 30 attempts" ∧
        (vaaFetch resp r0 fuel).requests.length = 5 * fuel ∧
        (vaaFetch resp r0 fuel).delays = fuel := by
  induction fuel with
  | zero => intro r0 _; exact ⟨rfl, rfl, rfl⟩
  | succ f ih =>
    intro r0 h
    have hq : queryHosts (resp r0) guardianHostIdx = (guardianHostIdx, none) := by
      apply queryHosts_all_fail
      intro i him
      refine h r0 i (le_refl r0) (by omega) ?_
      simp [guardianHostIdx] at him
      omega
    have ihr := ih (r0 + 1) (fun r i hr1 hr2 hi => h r i (by omega) (by omega) hi)
    simp only [vaaFetch, hq]
    simp [ihr.1, ihr.2.1, ihr.2.2, guardianHostIdx]
    omega

theorem vaaFetch_first_success {P : Type} (resp : Nat → Nat → Option P)
    (fuel : Nat) :
    ∀ r0 r i p, r0 ≤ r → r < r0 + fuel → i < 5 → resp r i = some p →
      (∀ r' i', i' < 5 → (r' < r ∨ (r' = r ∧ i' < i)) → resp r' i' = none) →
      (vaaFetch resp r0 fuel).result = Except.ok p ∧
        (vaaFetch resp r0 fuel).requests.length = 5 * (r - r0) + i + 1 ∧
        (vaaFetch resp r0 fuel).delays = r - r0 := by
  induction fuel with
  | zero => intro r0 r i p hr0 hrf; omega
  | succ f ih =>
    intro r0 r i p hr0 hrf hi hs hmin
    rcases Nat.eq_or_lt_of_le hr0 with heq | hlt
    · subst heq
      obtain ⟨qs, hq, hqlen⟩ :=
        queryHosts_first_success (resp r0) i p hi hs
          (fun j hj => hmin r0 j (by omega) (Or.inr ⟨rfl, hj⟩))
      simp only [vaaFetch, hq]
      simp [hqlen]
    · have hq : queryHosts (resp r0) guardianHostIdx = (guardianHostIdx, none) := by
        apply queryHosts_all_fail
        intro j hjm
        refine hmin r0 j ?_ (Or.inl hlt)
        simp [guardianHostIdx] at hjm
        omega
      have ihr := ih (r0 + 1) r i p (by omega) (by omega) hi hs hmin
      simp only [vaaFetch, hq]
      simp [ihr.1, ihr.2.1, ihr.2.2, guardianHostIdx]
      omega

/-- C4: `getSignedVAA` iterates the fixed ordered endpoint list and
returns the first successful payload immediately — issuing exactly the
requests up to and including the first success and awaiting one
inter-round delay per fully failed round before it — and fails with the
`'Failed to retrieve signed VAA after 30 attempts'` error only after all
5 endpoints have failed in each of exactly 30 rounds (150 requests);
individual endpoint failures are swallowed, never propagated. -/
theorem getSignedVAA_retry_policy {P : Type} (resp : Nat → Nat → Option P)
    (r i : Nat) (p : P) :
    ((∀ r' i', r' < 30 → i' < 5 → resp r' i' = none) →
      (getSignedVAA resp).result
          = Except.error "Failed to retrieve signed VAA after 30 attempts" ∧
        (getSignedVAA resp).requests.length = 150 ∧
        (getSignedVAA resp).delays = 30) ∧
    (r < 30 → i < 5 → resp r i = some p →
      (∀ r' i', i' < 5 → (r' < r ∨ (r' = r ∧ i' < i)) → resp r' i' = none) →
      (getSignedVAA resp).result = Except.ok p ∧
        (getSignedVAA resp).requests.length = 5 * r + i + 1 ∧
        (getSignedVAA resp).delays = r) := by
  constructor
  · intro h
    have := vaaFetch_all_fail resp 30 0 (fun r' i' _ hr hi => h r' i' (by omega) hi)
    simpa [getSignedVAA] using this
  · intro hr hi hs hmin
    have := vaaFetch_first_success resp 30 0 r i p (by omega) (by omega) hi hs hmin
    simpa [getSignedVAA] using this

/-- Witness for `getSignedVAA_retry_policy`: endpoints that always fail
exhaust all 30 rounds; endpoints whose first success is round 2, host 3
stop after 14 requests and 2 delays with that payload. -/
theorem getSignedVAA_retry_policy_witness :
    ((getSignedVAA (fun _ _ => (none : Option Nat))).result
        = Except.error "Failed to retrieve signed VAA after 30 attempts" ∧
      (getSignedVAA (fun _ _ => (none : Option Nat))).requests.length = 150 ∧
      (getSignedVAA (fun _ _ => (none : Option Nat))).delays = 30) ∧
    ((getSignedVAA (fun r i => if r = 2 ∧ i = 3 then some 7 else (none : Option Nat))).result
        = Except.ok 7 ∧
      (getSignedVAA (fun r i =>
        if r = 2 ∧ i = 3 then some 7 else (none : Option Nat))).requests.length
        = 5 * 2 + 3 + 1 ∧
      (getSignedVAA (fun r i =>
        if r = 2 ∧ i = 3 then some 7 else (none : Option Nat))).delays = 2) := by
  constructor
  · exact (getSignedVAA_retry_policy (fun _ _ => (none : Option Nat)) 0 0 0).1
      (fun _ _ _ _ => rfl)
  · refine (getSignedVAA_retry_policy
      (fun r i => if r = 2 ∧ i = 3 then some 7 else (none : Option Nat)) 2 3 7).2
      (by omega) (by omega) rfl ?_
    intro r' i' _ hc
    refine if_neg ?_
    rintro ⟨rfl, rfl⟩
    omega

/-! ## C5: missing LogMessagePublished entry is fatal -/

/-- C5: a lock receipt with no `LogMessagePublished` log entry makes the
sequence extraction throw the decode error, and the initiating
`transferTokens` call fails with that same reason before the transfer is
recorded anywhere — the orchestrator never leaves such a transfer
silently registered in the active set. -/
theorem transferTokens_missing_log_fails (receipt : TransactionReceipt)
    (h : ∀ l ∈ receipt.logs, l.topics[0]? ≠ some logTransferTopic) :
    extractSequence receipt = Except.error "LogMessagePublished event not found" ∧
    ∀ (sourceChainId : Nat) (tr : TokenBridgeTransfer) (active : TransferMap),
      transferTokensStep sourceChainId receipt tr active
        = Except.error "LogMessagePublished event not found" := by
  have hf : receipt.logs.find? (fun l => l.topics[0]? = some logTransferTopic) = none := by
    rw [List.find?_eq_none]
    intro l hl
    simp [h l hl]
  constructor
  · simp [extractSequence, hf]
  · intro s tr active
    simp [transferTokensStep, extractSequence, hf]

/-- Witness for `transferTokens_missing_log_fails`: an empty receipt. -/
theorem transferTokens_missing_log_fails_witness :
    extractSequence ⟨[]⟩ = Except.error "LogMessagePublished event not found" ∧
    transferTokensStep 1 ⟨[]⟩ ⟨2, "0xtok", 5, 23, "0xrcpt"⟩ []
      = Except.error "LogMessagePublished event not found" := by
  have h := transferTokens_missing_log_fails ⟨[]⟩ (by intro l hl; simp at hl)
  exact ⟨h.1, h.2 1 ⟨2, "0xtok", 5, 23, "0xrcpt"⟩ []⟩

/-! ## C6: active-transfer set lifecycle -/

/-- A lock receipt whose single log is a `LogMessagePublished` entry with
a fully valid ABI encoding of `(address, uint64, uint32, bytes, uint8)`:
zero address (word 0), sequence 7 (word 1), nonce 0 (word 2), offset 160
to an empty `bytes` tail (word 3 and the zero length word at byte 160),
and consistency level 0 (word 4) — 192 bytes in total. -/
def sampleLog : Log :=
  ⟨[logTransferTopic],
   List.replicate 63 0 ++ [7] ++ List.replicate 63 0 ++ [160] ++ List.replicate 64 0⟩

def sampleReceipt : TransactionReceipt := ⟨[sampleLog]⟩

example : extractSequence sampleReceipt = Except.ok 7 := by decide

example : abiDecodeLogData (List.replicate 63 0 ++ [7]) = Except.error "BUFFER_OVERRUN" := by
  decide

def sampleTransfer : TokenBridgeTransfer := ⟨2, "0xtok", 5, 23, "0xrcpt"⟩

/-- C6: the claim states the `(sourceChain, sequence)` entry is removed
from the active-transfer set when the transfer reaches a terminal state,
and that after completion the key no longer finds a transfer.  False:
`completeTransfer` never touches `activeTransfers` — after initiating the
concrete transfer below (key `1-7`) and completing it, the key still maps
to the transfer. -/
theorem activeTransfers_not_removed_on_complete :
    transferTokensStep 1 sampleReceipt sampleTransfer []
        = Except.ok ([(transferKey 1 7, sampleTransfer)], 7) ∧
      mapGet (transferKey 1 7)
        (completeTransferActive [(transferKey 1 7, sampleTransfer)])
        = some sampleTransfer := by
  decide

/-- C6 (amended): the entry keyed `(sourceChain, sequence)` is added to
`activeTransfers` when the lock step succeeds, but it is never removed:
`completeTransfer` leaves the map untouched (and `getTransferStatus` only
reads it), so after completion the key still finds the transfer. -/
theorem activeTransfers_persist (sourceChainId : Nat)
    (receipt : TransactionReceipt) (tr : TokenBridgeTransfer)
    (active : TransferMap) (m : TransferMap) (seq : Nat)
    (h : transferTokensStep sourceChainId receipt tr active = Except.ok (m, seq)) :
    mapGet (transferKey sourceChainId seq) m = some tr ∧
    completeTransferActive m = m := by
  unfold transferTokensStep at h
  cases he : extractSequence receipt with
  | error e => rw [he] at h; exact absurd h (by simp)
  | ok s =>
    rw [he] at h
    simp only [Except.ok.injEq, Prod.mk.injEq] at h
    obtain ⟨hm, hs⟩ := h
    subst hs
    rw [← hm]
    exact ⟨mapGet_mapSet_self _ _ _, rfl⟩

/-- Witness for `activeTransfers_persist`, at the concrete `1-7` transfer. -/
theorem activeTransfers_persist_witness :
    mapGet (transferKey 1 7) [(transferKey 1 7, sampleTransfer)] = some sampleTransfer ∧
    completeTransferActive [(transferKey 1 7, sampleTransfer)]
      = [(transferKey 1 7, sampleTransfer)] :=
  activeTransfers_persist 1 sampleReceipt sampleTransfer [] _ 7 (by decide)

/-! ## C9: event bus isolates failing handlers -/

theorem foldl_append_map {β γ : Type} (f : β → γ) (l : List β) (init : List γ) :
    l.foldl (fun acc e => acc ++ [f e]) init = init ++ l.map f := by
  induction l generalizing init with
  | nil => simp
  | cons b bs ih => simp [List.foldl_cons, ih]

/-- C9: a handler that throws is isolated — `emit` still invokes every
listener, in subscription order, with the same event (the trace records
every position with its outcome), and the publish call itself returns
`true` normally instead of propagating the handler's error. -/
theorem emit_isolates_failures {α : Type} (ls : List (Handler α)) (x : α)
    (j : Nat) (hj : j < ls.length)
    (hfail : ((ls.get ⟨j, hj⟩) x).isOk = false) :
    (emitModel ls x).1 = true ∧
    (emitModel ls x).2 = ls.enum.map (fun e => (e.1, (e.2 x).isOk)) ∧
    ∀ k (hk : k < ls.length), (k, ((ls.get ⟨k, hk⟩) x).isOk) ∈ (emitModel ls x).2 := by
  have hne : ls.isEmpty = false := by
    cases ls
    · simp at hj
    · simp
  have htrace : (emitModel ls x).2 = ls.enum.map (fun e => (e.1, (e.2 x).isOk)) := by
    simp [emitModel, hne, foldl_append_map]
  refine ⟨by simp [emitModel, hne], htrace, ?_⟩
  intro k hk
  rw [htrace]
  have hk' : k < ls.enum.length := by simpa using hk
  have hmem : ls.enum.get ⟨k, hk'⟩ ∈ ls.enum := List.get_mem ls.enum k hk'
  have hval : ls.enum.get ⟨k, hk'⟩ = (k, ls.get ⟨k, hk⟩) := by
    simp [List.getElem_enum]
  exact List.mem_map.mpr ⟨_, hmem, by rw [hval]⟩

/-- Witness for `emit_isolates_failures`: two listeners, the first one
throwing; both are invoked and `emit` returns `true`. -/
theorem emit_isolates_failures_witness :
    (emitModel [fun _ => Except.error "boom",
        fun _ => (Except.ok () : Except String Unit)] (0 : Nat)).1 = true ∧
    (emitModel [fun _ => Except.error "boom",
        fun _ => (Except.ok () : Except String Unit)] (0 : Nat)).2
      = [(0, false), (1, true)] ∧
    ((1 : Nat), true) ∈ (emitModel [fun _ => Except.error "boom",
        fun _ => (Except.ok () : Except String Unit)] (0 : Nat)).2 := by
  have h := emit_isolates_failures
    [fun _ => Except.error "boom", fun _ => (Except.ok () : Except String Unit)]
    (0 : Nat) 0 (by simp) rfl
  exact ⟨h.1, h.2.1, h.2.2 1 (by simp)⟩

/-! ## C7: auction status sequence -/

def stPending : AuctionStatus := ⟨"pending", none, none⟩

def stInAuction : AuctionStatus := ⟨"in_auction", none, none⟩

def stResolverSel : AuctionStatus := ⟨"resolver_selected", some "0xresolver", none⟩

def stExecNoFills : AuctionStatus := ⟨"executing", none, some []⟩

def stExecFills : AuctionStatus := ⟨"executing", none, some [()]⟩

def stCompleted : AuctionStatus := ⟨"completed", none, none⟩

/-- The external status sequence of the claim. -/
def c7Statuses : List AuctionStatus :=
  [stPending, stInAuction, stResolverSel, stExecNoFills, stExecFills, stCompleted]

/-- C7: feeding the status sequence `pending, in_auction, resolver_selected,
executing (no fills), executing (with fills), completed` to a freshly
registered order produces the internal states `Announced, InAuction,
ResolverSelected, Executing, EscrowDeposited, Completed` in that order,
each poll emitting exactly the one state-change event pair for its change;
and in general a poll whose mapped state equals the current state, or
whose status string is unrecognized, emits no event. -/
theorem auctionTracker_status_sequence :
    ((pollStatuses "order" c7Statuses
        (trackOrder "order" 0 defaultTimeoutMs []).1).2.map (fun e => e.1)
      = [some .announced, some .inAuction, some .resolverSelected,
         some .executing, some .escrowDeposited, some .completed] ∧
     (pollStatuses "order" c7Statuses
        (trackOrder "order" 0 defaultTimeoutMs []).1).2.map (fun e => e.2)
      = [emitAuctionEvent "order" .announced, emitAuctionEvent "order" .inAuction,
         emitAuctionEvent "order" .resolverSelected, emitAuctionEvent "order" .executing,
         emitAuctionEvent "order" .escrowDeposited,
         emitAuctionEvent "order" .completed]) ∧
    (∀ (h : String) (st : AuctionStatus) (m : AuctionMap) (a : Auction),
      mapGet h m = some a → mapStatus a.state st = a.state →
      (checkAuctionStatus h st m).2 = []) ∧
    (∀ (h : String) (st : AuctionStatus) (m : AuctionMap) (a : Auction),
      mapGet h m = some a →
      st.status ∉ (["pending", "in_auction", "resolver_selected", "executing",
        "completed", "failed", "expired"] : List String) →
      (checkAuctionStatus h st m).2 = []) := by
  have hsame : ∀ (h : String) (st : AuctionStatus) (m : AuctionMap) (a : Auction),
      mapGet h m = some a → mapStatus a.state st = a.state →
      (checkAuctionStatus h st m).2 = [] := by
    intro h st m a ha hstate
    unfold checkAuctionStatus
    rw [ha]
    simp [hstate]
  refine ⟨by decide, hsame, ?_⟩
  intro h st m a ha hnotin
  refine hsame h st m a ha ?_
  have h1 : st.status ≠ "pending" := fun he => hnotin (by simp [he])
  have h2 : st.status ≠ "in_auction" := fun he => hnotin (by simp [he])
  have h3 : st.status ≠ "resolver_selected" := fun he => hnotin (by simp [he])
  have h4 : st.status ≠ "executing" := fun he => hnotin (by simp [he])
  have h5 : st.status ≠ "completed" := fun he => hnotin (by simp [he])
  have h6 : st.status ≠ "failed" := fun he => hnotin (by simp [he])
  have h7 : st.status ≠ "expired" := fun he => hnotin (by simp [he])
  simp [mapStatus, h1, h2, h3, h4, h5, h6, h7]

/-- Witness for `auctionTracker_status_sequence`: a poll reporting
`pending` on an order already in state `Announced` emits nothing, and a
poll with the unrecognized status `weird` emits nothing. -/
theorem auctionTracker_status_sequence_witness :
    (checkAuctionStatus "o" stPending
      [("o", ⟨.announced, none, 0, 1000, true⟩)]).2 = [] ∧
    (checkAuctionStatus "o" ⟨"weird", none, none⟩
      [("o", ⟨.announced, none, 0, 1000, true⟩)]).2 = [] := by
  have h := auctionTracker_status_sequence
  exact ⟨h.2.1 "o" stPending [("o", ⟨.announced, none, 0, 1000, true⟩)]
      ⟨.announced, none, 0, 1000, true⟩ (by decide) (by decide),
    h.2.2 "o" ⟨"weird", none, none⟩ [("o", ⟨.announced, none, 0, 1000, true⟩)]
      ⟨.announced, none, 0, 1000, true⟩ (by decide) (by decide)⟩

/-! ## C8 and C10: timeout handling -/

theorem updateResolver_fields (a : Auction) (st : AuctionStatus) :
    (updateResolver a st).state = a.state ∧
    (updateResolver a st).startTime = a.startTime ∧
    (updateResolver a st).timeoutMs = a.timeoutMs ∧
    (updateResolver a st).intervalActive = a.intervalActive := by
  unfold updateResolver
  split_ifs
  · cases hr : st.resolver <;> simp
  · simp

/-- The auction stored by a successful status check, before any terminal
or timeout handling. -/
def storedAuction (a : Auction) (st : AuctionStatus) : Auction :=
  if mapStatus a.state st ≠ a.state
    then { updateResolver a st with state := mapStatus a.state st }
    else updateResolver a st

theorem checkAuctionStatus_found (h : String) (st : AuctionStatus) (m : AuctionMap)
    (a : Auction) (ha : mapGet h m = some a) :
    (checkAuctionStatus h st m).1 = mapSet h (storedAuction a st) m ∧
    (checkAuctionStatus h st m).2
        = (if mapStatus a.state st ≠ a.state
            then emitAuctionEvent h (mapStatus a.state st) else []) := by
  unfold checkAuctionStatus storedAuction
  rw [ha]
  by_cases hc : mapStatus a.state st ≠ a.state <;> simp [hc]

theorem storedAuction_frame (a : Auction) (st : AuctionStatus) :
    (storedAuction a st).startTime = a.startTime ∧
    (storedAuction a st).timeoutMs = a.timeoutMs := by
  unfold storedAuction
  split_ifs <;>
    simp [(updateResolver_fields a st).2.1, (updateResolver_fields a st).2.2.1]

theorem storedAuction_state (a : Auction) (st : AuctionStatus) :
    (storedAuction a st).state = mapStatus a.state st := by
  unfold storedAuction
  split_ifs with hc
  · rfl
  · rw [not_not] at hc
    rw [(updateResolver_fields a st).1, hc]

/-- The timeout path of one polling tick: if the order is live, the
elapsed time exceeds the timeout, and the just-polled status does not map
to a terminal state, the tick stores state `Expired` with the interval
cleared and emits the expired events followed by one `refund_needed`. -/
theorem pollTick_timeout_core (h : String) (now : Nat) (st : AuctionStatus)
    (m : AuctionMap) (a : Auction) (ha : mapGet h m = some a)
    (hact : a.intervalActive = true)
    (hel : (now : Int) - (a.startTime : Int) > (a.timeoutMs : Int))
    (hnt : mapStatus a.state st ∉ terminalStates) :
    pollTick h now st m
      = (mapSet h { storedAuction a st with state := .expired, intervalActive := false }
            (mapSet h (storedAuction a st) m),
         (if mapStatus a.state st ≠ a.state
            then emitAuctionEvent h (mapStatus a.state st) else [])
           ++ emitAuctionEvent h .expired ++ [.refundNeeded h],
         true) := by
  obtain ⟨hm1, hev⟩ := checkAuctionStatus_found h st m a ha
  have hterm : (storedAuction a st).state ∉ terminalStates := by
    rw [storedAuction_state]; exact hnt
  simp only [pollTick, ha, hact, Bool.true_eq_false, if_false, hm1, hev,
    mapGet_mapSet_self]
  rw [if_neg hterm]
  rw [(storedAuction_frame a st).1, (storedAuction_frame a st).2]
  rw [if_pos hel]
  simp only [mapGet_mapSet_self]
  rw [(storedAuction_frame a st).1, (storedAuction_frame a st).2]

/-- A tick on an order whose interval has been cleared is a no-op: no
status poll is issued, nothing changes, nothing is emitted. -/
theorem pollTick_inactive (h : String) (now : Nat) (st : AuctionStatus)
    (m : AuctionMap) (a : Auction) (ha : mapGet h m = some a)
    (hact : a.intervalActive = false) :
    pollTick h now st m = (m, [], false) := by
  simp [pollTick, ha, hact]

/-- A poll that maps to a terminal state deletes the order's entry,
whatever the clock says. -/
theorem pollTick_terminal_deletes (h : String) (now : Nat) (st : AuctionStatus)
    (m : AuctionMap) (a : Auction) (ha : mapGet h m = some a)
    (hact : a.intervalActive = true)
    (hterm : mapStatus a.state st ∈ terminalStates) :
    mapGet h (pollTick h now st m).1 = none := by
  obtain ⟨hm1, hev⟩ := checkAuctionStatus_found h st m a ha
  have hterm' : (storedAuction a st).state ∈ terminalStates := by
    rw [storedAuction_state]; exact hterm
  simp only [pollTick, ha, hact, Bool.true_eq_false, if_false, hm1, hev,
    mapGet_mapSet_self]
  rw [if_pos hterm']
  simp only [mapGet_mapDelete_self]
  split_ifs <;> simp [mapGet_mapDelete_self]

theorem mem_getActiveAuctions (h : String) (m : AuctionMap) (a : Auction)
    (ha : mapGet h m = some a) : (h, a.state) ∈ getActiveAuctions m := by
  unfold mapGet at ha
  cases hf : m.find? (fun e => e.1 = h) with
  | none => rw [hf] at ha; simp at ha
  | some e =>
    rw [hf] at ha
    simp only [Option.map_some', Option.some.injEq] at ha
    have hkey : e.1 = h := by simpa using List.find?_some hf
    have hm : e ∈ m := List.mem_of_find?_eq_some hf
    unfold getActiveAuctions
    exact List.mem_map.mpr ⟨e, hm, by rw [hkey, ha]⟩

/-- C8: the claim states that once the elapsed time exceeds the timeout
the tracker forces `Expired` and emits a `refund_needed` event regardless
of the last polled external status.  False: the status check runs before
the timeout check in the same tick, so a poll mapping to a terminal state
(here `completed`) deletes the entry first and `handleTimeout` then finds
nothing — no `refund_needed` is emitted and no `Expired` state is stored,
even though the timeout (1000 ms, clock at 5000) is long exceeded. -/
theorem pollTick_completed_at_timeout_no_refund :
    ((5000 : Int) - ((0 : Nat) : Int) > ((1000 : Nat) : Int)) ∧
    (pollTick "o" 5000 stCompleted
      [("o", ⟨.executing, none, 0, 1000, true⟩)]).2.1.count (.refundNeeded "o") = 0 ∧
    getAuctionState "o"
      (pollTick "o" 5000 stCompleted
        [("o", ⟨.executing, none, 0, 1000, true⟩)]).1 = none := by
  decide

/-- C8 (amended): once the elapsed wall-clock time since `startTime`
exceeds the configured timeout, a tick whose polled status does *not* map
to a terminal state forces the stored state to `Expired`, emits exactly
one `refund_needed` event carrying the order hash, clears the interval,
and every later tick for that order issues no status poll, no state
change and no event.  (If the poll at that tick maps to a terminal state
instead, the entry is deleted with that terminal state and no
`refund_needed` is emitted.) -/
theorem auctionTracker_timeout_refund (h : String) (now : Nat)
    (st : AuctionStatus) (m : AuctionMap) (a : Auction)
    (ha : mapGet h m = some a) (hact : a.intervalActive = true)
    (hel : (now : Int) - (a.startTime : Int) > (a.timeoutMs : Int))
    (hnt : mapStatus a.state st ∉ terminalStates) :
    getAuctionState h (pollTick h now st m).1 = some .expired ∧
    (pollTick h now st m).2.1.count (.refundNeeded h) = 1 ∧
    (pollTick h now st m).2.2 = true ∧
    ∀ (now' : Nat) (st' : AuctionStatus),
      pollTick h now' st' (pollTick h now st m).1 = ((pollTick h now st m).1, [], false) := by
  have hcore := pollTick_timeout_core h now st m a ha hact hel hnt
  rw [hcore]
  refine ⟨?_, ?_, rfl, ?_⟩
  · simp [getAuctionState, mapGet_mapSet_self]
  · split_ifs <;> simp [emitAuctionEvent]
  · intro now' st'
    exact pollTick_inactive h now' st' _ _ (mapGet_mapSet_self _ _ _) rfl

/-- Witness for `auctionTracker_timeout_refund`: order `o` registered at
time 0 with a 1000 ms timeout, polled healthy (`pending`) at time 5000. -/
theorem auctionTracker_timeout_refund_witness :
    getAuctionState "o"
        (pollTick "o" 5000 stPending
          [("o", ⟨.announced, none, 0, 1000, true⟩)]).1 = some .expired ∧
    (pollTick "o" 5000 stPending
        [("o", ⟨.announced, none, 0, 1000, true⟩)]).2.1.count (.refundNeeded "o") = 1 ∧
    (pollTick "o" 5000 stPending
        [("o", ⟨.announced, none, 0, 1000, true⟩)]).2.2 = true ∧
    pollTick "o" 6000 stInAuction
        (pollTick "o" 5000 stPending
          [("o", ⟨.announced, none, 0, 1000, true⟩)]).1
      = ((pollTick "o" 5000 stPending
          [("o", ⟨.announced, none, 0, 1000, true⟩)]).1, [], false) := by
  have hth := auctionTracker_timeout_refund "o" 5000 stPending
    [("o", ⟨.announced, none, 0, 1000, true⟩)] ⟨.announced, none, 0, 1000, true⟩
    (by decide) rfl (by decide) (by decide)
  exact ⟨hth.1, hth.2.1, hth.2.2.1, hth.2.2.2 6000 stInAuction⟩

/-- C10: when an order expires via the timeout path (`handleTimeout`),
only its state field changes: the entry stays in the registry, so
`getActiveAuctions` still contains the order with state `Expired` and
`getAuctionState` returns `Expired` — unlike a terminal state detected by
polling, which deletes the entry. -/
theorem handleTimeout_keeps_registry_entry (h : String) (now : Nat)
    (st st' : AuctionStatus) (m : AuctionMap) (a : Auction)
    (ha : mapGet h m = some a) (hact : a.intervalActive = true)
    (hel : (now : Int) - (a.startTime : Int) > (a.timeoutMs : Int))
    (hnt : mapStatus a.state st ∉ terminalStates)
    (hterm : mapStatus a.state st' ∈ terminalStates) :
    (∃ a2, mapGet h (pollTick h now st m).1 = some a2 ∧ a2.state = .expired) ∧
    getAuctionState h (pollTick h now st m).1 = some .expired ∧
    (h, AuctionState.expired) ∈ getActiveAuctions (pollTick h now st m).1 ∧
    mapGet h (pollTick h now st' m).1 = none := by
  have hcore := pollTick_timeout_core h now st m a ha hact hel hnt
  have hget : mapGet h (pollTick h now st m).1
      = some { storedAuction a st with state := .expired, intervalActive := false } := by
    rw [hcore]
    exact mapGet_mapSet_self _ _ _
  refine ⟨⟨_, hget, rfl⟩, ?_, ?_, ?_⟩
  · simp [getAuctionState, hget]
  · exact mem_getActiveAuctions h _ _ hget
  · exact pollTick_terminal_deletes h now st' m a ha hact hterm

/-- Witness for `handleTimeout_keeps_registry_entry`: order `o` past its
timeout, polled `pending` (stays registered as `Expired`) versus polled
`completed` (deleted). -/
theorem handleTimeout_keeps_registry_entry_witness :
    (∃ a2, mapGet "o"
        (pollTick "o" 5000 stPending
          [("o", ⟨.announced, none, 0, 1000, true⟩)]).1 = some a2 ∧
      a2.state = .expired) ∧
    getAuctionState "o"
        (pollTick "o" 5000 stPending
          [("o", ⟨.announced, none, 0, 1000, true⟩)]).1 = some .expired ∧
    ("o", AuctionState.expired) ∈ getActiveAuctions
        (pollTick "o" 5000 stPending
          [("o", ⟨.announced, none, 0, 1000, true⟩)]).1 ∧
    mapGet "o"
        (pollTick "o" 5000 stCompleted
          [("o", ⟨.announced, none, 0, 1000, true⟩)]).1 = none :=
  handleTimeout_keeps_registry_entry "o" 5000 stPending stCompleted
    [("o", ⟨.announced, none, 0, 1000, true⟩)] ⟨.announced, none, 0, 1000, true⟩
    (by decide) rfl (by decide) (by decide) (by decide)

end Zetaris
